import Mathlib

/-!
Verification of the core of `generate-epg.py` (bsimm/iptv): an M3U playlist
parser, a channel/catalog matching pass, a match cache with age-based
invalidation, and a guide-artifact freshness check.  Every definition below is
a shallow embedding of the corresponding Python function; line-oriented loops
over an index `i` become structural recursion over the list of lines, and the
Python string primitives (`strip`, `startswith`, `split('\n')`, `'\n'.join`)
are spelled out over `List Char` so that everything is executable.
-/

/-- The double-quote character, written via its code point. -/
def dquote : Char := Char.ofNat 34

/-- The single-quote character, written via its code point. -/
def squote : Char := Char.ofNat 39

/-- The newline character. -/
def nl : Char := Char.ofNat 10

/-- The whitespace characters stripped by Python's `str.strip()`
(space, tab, newline, carriage return, vertical tab, form feed). -/
def is_space (c : Char) : Bool :=
  c = Char.ofNat 32 || c = Char.ofNat 9 || c = Char.ofNat 10 ||
  c = Char.ofNat 13 || c = Char.ofNat 11 || c = Char.ofNat 12

/-- Python's `str.strip()`: drop leading and trailing whitespace. -/
def strip (cs : List Char) : List Char :=
  ((cs.dropWhile is_space).reverse.dropWhile is_space).reverse

/-- Python's `str.startswith(pat)`. -/
def starts_with (cs pat : List Char) : Bool :=
  decide (cs.take pat.length = pat)

/-- Python's `str.split('\n')`: split on every newline, keeping empty
pieces (`''.split('\n') == ['']`, `'a\n'.split('\n') == ['a', '']`). -/
def split_nl : List Char → List (List Char)
  | [] => [[]]
  | c :: rest =>
    if c = nl then [] :: split_nl rest
    else
      match split_nl rest with
      | [] => [[c]]
      | g :: gs => (c :: g) :: gs

/-- Python's `'\n'.join(pieces)`. -/
def join_nl : List (List Char) → List Char
  | [] => []
  | [a] => a
  | a :: b :: rest => a ++ nl :: join_nl (b :: rest)

/-- The line pattern `#EXTINF:` that begins an entry. -/
def extinf_pat : List Char := "#EXTINF:".toList

/-- The directive marker `#`. -/
def hash_pat : List Char := "#".toList

/-- One parsed playlist channel, mirroring the dict built by `parse_m3u`:
`tvg_id`, `metadata_lines`, `stream_url` and the precomputed `full_entry`
string (`'\n'.join(metadata_lines) + '\n' + stream_url`). -/
structure Channel where
  tvg_id : Option String
  metadata_lines : List String
  stream_url : String
  full_entry : String
deriving DecidableEq

/-- The literal character pattern `tvg-id="` of the regex
`tvg-id="([^"]+)"` used on the primary metadata line. -/
def tvg_pat : List Char := "tvg-id=".toList ++ [dquote]

/-- Attempt to match the regex `tvg-id="([^"]+)"` at the head of `cs`:
the literal pattern, then a non-empty run of non-quote characters, then a
closing quote; the captured run is returned. -/
def tvg_match_at (cs : List Char) : Option String :=
  if cs.take tvg_pat.length = tvg_pat then
    let rest := cs.drop tvg_pat.length
    let v := rest.takeWhile (fun c => c ≠ dquote)
    if v.isEmpty then none
    else if (rest.drop v.length).head? = some dquote then some (String.mk v)
    else none
  else none

/-- `re.search`: try the pattern at every position, leftmost match wins. -/
def tvg_search : List Char → Option String
  | [] => none
  | c :: rest =>
    match tvg_match_at (c :: rest) with
    | some v => some v
    | none => tvg_search rest

/-- `re.search(r'tvg-id="([^"]+)"', line)` returning the captured group,
or `None` when there is no match. -/
def extract_tvg_id (line : List Char) : Option String :=
  tvg_search line

/-- Build the channel dict appended by `parse_m3u` once a stream URL line is
found: `first` is the stripped primary `#EXTINF:` line, `aux` the stripped
auxiliary metadata lines, `url` the stripped URL line. -/
def mk_channel (first : List Char) (aux : List (List Char)) (url : List Char) :
    Channel :=
  { tvg_id := extract_tvg_id first
    metadata_lines := (first :: aux).map String.mk
    stream_url := String.mk url
    full_entry := String.mk (join_nl (first :: aux) ++ nl :: url) }

/-- Is the line an auxiliary metadata line for the inner collection loop of
`parse_m3u`: its stripped form starts with `#` but not with `#EXTINF:`? -/
def aux_line (l : List Char) : Bool :=
  starts_with (strip l) hash_pat && !(starts_with (strip l) extinf_pat)

/-- Parser mode: `top` scans for a primary `#EXTINF:` line; `collect` is the
inner loop accumulating auxiliary metadata lines (it carries the stripped
primary line and the stripped auxiliary lines collected so far); `skipb` is
the blank-line skipping loop before the URL line. -/
inductive PMode where
  | top : PMode
  | collect (first : List Char) (aux : List (List Char)) : PMode
  | skipb (first : List Char) (aux : List (List Char)) : PMode

/-- The `while i < len(lines)` loop of `parse_m3u`, with the two inner loops
(auxiliary-metadata collection and blank skipping) expressed as modes.  In
`collect` and `skipb`, once a non-blank, non-auxiliary line is reached it is
taken as the stream URL unconditionally (as in the source, where after the
blank-skipping loop `stream_url = lines[i].strip()` with no further test);
reaching end of input in `collect`/`skipb` produces no record. -/
def parse_go : List (List Char) → PMode → List Channel
  | [], _ => []
  | l :: rest, PMode.top =>
    if starts_with (strip l) extinf_pat then
      parse_go rest (PMode.collect (strip l) [])
    else
      parse_go rest PMode.top
  | l :: rest, PMode.collect first aux =>
    if aux_line l then
      parse_go rest (PMode.collect first (aux ++ [strip l]))
    else if strip l = [] then
      parse_go rest (PMode.skipb first aux)
    else
      mk_channel first aux (strip l) :: parse_go rest PMode.top
  | l :: rest, PMode.skipb first aux =>
    if strip l = [] then
      parse_go rest (PMode.skipb first aux)
    else
      mk_channel first aux (strip l) :: parse_go rest PMode.top

/-- `parse_m3u` run on an explicit list of lines. -/
def parse_m3u_lines (lines : List (List Char)) : List Channel :=
  parse_go lines PMode.top

/-- `parse_m3u(m3u_content)`: split the content on newlines and run the
scanning loop. -/
def parse_m3u (m3u_content : String) : List Channel :=
  parse_m3u_lines (split_nl m3u_content.toList)

example :
    parse_m3u "#EXTM3U\n#EXTINF:-1 tvg-id=\"abc\",Chan\nhttp://x/y" =
      [{ tvg_id := some "abc"
         metadata_lines := ["#EXTINF:-1 tvg-id=\"abc\",Chan"]
         stream_url := "http://x/y"
         full_entry := "#EXTINF:-1 tvg-id=\"abc\",Chan\nhttp://x/y" }] := by
  decide

example :
    (parse_m3u "#EXTINF:a\n#EXTINF:b\nhttp://u").map Channel.stream_url =
      ["#EXTINF:b"] := by
  decide

example :
    (parse_m3u "#EXTINF:x tvg-id=\"q\"\n#EXTOPT:o\n\nhttp://u\njunk").map
        Channel.metadata_lines =
      [["#EXTINF:x tvg-id=\"q\"", "#EXTOPT:o"]] := by
  decide

/-- One catalog channel-definition node, keyed by its `xmltv_id` attribute
(the only attribute the program ever reads). -/
structure ChannelDef where
  xmltv_id : String
deriving DecidableEq

/-- One `*/*.channels.xml` file of the catalog: `none` when `ET.parse`
raises (the file is skipped by the `except` clauses), otherwise the list of
`channel` nodes in document order. -/
def SiteFile : Type := Option (List ChannelDef)

/-- Searching one parsed file with
`root.findall(".//channel[@xmltv_id='{}']".format(tvg_id))` and returning
the first hit.  When `tvg_id` contains a single quote the interpolated
predicate is syntactically invalid and `findall` raises `SyntaxError`, which
the bare `except Exception` clause turns into skipping the file, i.e. no
result; otherwise the first node whose `xmltv_id` equals the query is
returned. -/
def find_in_file (tvg_id : String) (file : SiteFile) : Option ChannelDef :=
  match file with
  | none => none
  | some defs =>
    if squote ∈ tvg_id.toList then none
    else defs.find? (fun d => d.xmltv_id = tvg_id)

/-- `find_channel_in_sites(tvg_id, sites_dir)`: iterate over the catalog
files, return the first channel definition found, `None` if no file yields
one. -/
def find_channel_in_sites (tvg_id : String) (sites : List SiteFile) :
    Option ChannelDef :=
  match sites with
  | [] => none
  | f :: rest =>
    match find_in_file tvg_id f with
    | some c => some c
    | none => find_channel_in_sites tvg_id rest

/-- Python truthiness of the optional `tvg_id` string: `not tvg_id` is true
for `None` and for the empty string. -/
def py_falsy (o : Option String) : Bool :=
  match o with
  | none => true
  | some s => s = ""

/-- The mutable state of the matching loop in `main`: the `channels_root`
element children, the `matched_channels` list and the two counters. -/
structure MatchState where
  channels_root : List ChannelDef
  matched_channels : List Channel
  matched_count : Nat
  skipped_count : Nat
deriving DecidableEq

/-- The initial matching state: empty `<channels>` root, no matches. -/
def init_match_state : MatchState :=
  { channels_root := [], matched_channels := [], matched_count := 0
    skipped_count := 0 }

/-- One iteration of the `for channel in channels` loop of `main`:
a falsy `tvg_id` only bumps `skipped_count`; otherwise the catalog is
searched, and a hit appends the definition to `channels_root`, the channel
to `matched_channels` and bumps `matched_count`, while a miss changes
nothing (the removed total is printed as a difference, not counted). -/
def match_step (sites : List SiteFile) (st : MatchState) (c : Channel) :
    MatchState :=
  match c.tvg_id with
  | none => { st with skipped_count := st.skipped_count + 1 }
  | some id =>
    if id = "" then { st with skipped_count := st.skipped_count + 1 }
    else
      match find_channel_in_sites id sites with
      | some el =>
        { st with
          channels_root := st.channels_root ++ [el]
          matched_channels := st.matched_channels ++ [c]
          matched_count := st.matched_count + 1 }
      | none => st

/-- The whole matching loop of `main` over the parsed channels. -/
def run_match (sites : List SiteFile) (channels : List Channel) : MatchState :=
  channels.foldl (match_step sites) init_match_state

/-- The catalog outcome for one channel: `none` when the channel is skipped
(falsy `tvg_id`) or its identifier has no definition, otherwise the
definition that the loop appends.  `matched` entries are exactly those on
which this is `some`. -/
def entry_lookup (sites : List SiteFile) (c : Channel) : Option ChannelDef :=
  match c.tvg_id with
  | none => none
  | some id => if id = "" then none else find_channel_in_sites id sites

/-- `CACHE_MAX_AGE = 24 * 60 * 60` seconds. -/
def CACHE_MAX_AGE : Int := 24 * 60 * 60

/-- `GUIDE_CACHE_MAX_AGE = 12 * 60 * 60` seconds. -/
def GUIDE_CACHE_MAX_AGE : Int := 12 * 60 * 60

/-- The observable state of the cache file for `load_channel_cache`:
missing, unreadable (any `open`/`json.load`/key/`ET.fromstring` failure —
all are caught by the `except` clause), or a good record with its stored
timestamp, matched channels and serialized `<channels>` children. -/
inductive CacheState where
  | missing : CacheState
  | unreadable : CacheState
  | ok (timestamp : Int) (matched : List Channel) (root : List ChannelDef) :
      CacheState
deriving DecidableEq

/-- `save_channel_cache(matched_channels, channels_root)`: the cache file
after a save holds `time.time()` at save time plus the match data. -/
def save_channel_cache (now : Int) (matched : List Channel)
    (root : List ChannelDef) : CacheState :=
  CacheState.ok now matched root

/-- `load_channel_cache()`: `None` when the file is missing, unreadable, or
its age `now - timestamp` exceeds `CACHE_MAX_AGE`; otherwise the matched
channels and the reconstructed `<channels>` root. -/
def load_channel_cache (now : Int) (st : CacheState) :
    Option (List Channel × List ChannelDef) :=
  match st with
  | CacheState.missing => none
  | CacheState.unreadable => none
  | CacheState.ok ts matched root =>
    if now - ts > CACHE_MAX_AGE then none
    else some (matched, root)

/-- `is_guide_recent()`: `False` when `guide.xml` does not exist (`mtime` is
`none`), `False` when its age `now - mtime` exceeds `GUIDE_CACHE_MAX_AGE`,
`True` otherwise. -/
def is_guide_recent (now : Int) (mtime : Option Int) : Bool :=
  match mtime with
  | none => false
  | some t => if now - t > GUIDE_CACHE_MAX_AGE then false else true

/-- `f.write("#EXTM3U\n")` followed by `f.write(channel['full_entry'] + '\n')`
for each matched channel. -/
def render_playlist (matched : List Channel) : String :=
  "#EXTM3U" ++ String.singleton nl ++
    String.join (matched.map (fun c => c.full_entry ++ String.singleton nl))

/-- The observable outcome of the core of `main` (through the two output
writes; the external guide generation that follows is orchestration):
the exit code, the cache file state after the run, and the two outputs,
`none` when the corresponding file was not written. -/
structure RunResult where
  exit_code : Nat
  cache_after : CacheState
  channels_xml : Option (List ChannelDef)
  playlist : Option String
deriving DecidableEq

/-- The core of `main` from the cache probe through the output writes:
load the cache unless `--refresh`; on a hit use its channels and root
(`matched_count = len(matched_channels)`); on a miss parse the playlist, run
the matching loop and save the cache; then `sys.exit(1)` when
`matched_count == 0`, else write `channels.xml` and the filtered playlist. -/
def main_model (refresh : Bool) (now : Int) (cache0 : CacheState)
    (m3u_content : String) (sites : List SiteFile) : RunResult :=
  let cache := if refresh then none else load_channel_cache now cache0
  match cache with
  | some (matched, root) =>
    if matched.length = 0 then
      { exit_code := 1, cache_after := cache0, channels_xml := none
        playlist := none }
    else
      { exit_code := 0, cache_after := cache0, channels_xml := some root
        playlist := some (render_playlist matched) }
  | none =>
    let channels := parse_m3u m3u_content
    let st := run_match sites channels
    let cache1 := save_channel_cache now st.matched_channels st.channels_root
    if st.matched_count = 0 then
      { exit_code := 1, cache_after := cache1, channels_xml := none
        playlist := none }
    else
      { exit_code := 0, cache_after := cache1
        channels_xml := some st.channels_root
        playlist := some (render_playlist st.matched_channels) }

/-- The matched count that the zero-match guard of `main` tests: the cached
record's length on a hit, the matching loop's counter on a miss. -/
def effective_matched_count (refresh : Bool) (now : Int) (cache0 : CacheState)
    (m3u_content : String) (sites : List SiteFile) : Nat :=
  match (if refresh then none else load_channel_cache now cache0) with
  | some (matched, _) => matched.length
  | none => (run_match sites (parse_m3u m3u_content)).matched_count

/-! ### Parser lemmas -/

lemma parse_go_nil (m : PMode) : parse_go [] m = [] := by
  cases m <;> rfl

lemma parse_go_cons_top (l : List Char) (rest : List (List Char)) :
    parse_go (l :: rest) PMode.top =
      if starts_with (strip l) extinf_pat then
        parse_go rest (PMode.collect (strip l) [])
      else parse_go rest PMode.top := rfl

lemma parse_go_cons_collect (l : List Char) (rest : List (List Char))
    (first : List Char) (acc : List (List Char)) :
    parse_go (l :: rest) (PMode.collect first acc) =
      if aux_line l then
        parse_go rest (PMode.collect first (acc ++ [strip l]))
      else if strip l = [] then
        parse_go rest (PMode.skipb first acc)
      else
        mk_channel first acc (strip l) :: parse_go rest PMode.top := rfl

lemma parse_go_cons_skipb (l : List Char) (rest : List (List Char))
    (first : List Char) (acc : List (List Char)) :
    parse_go (l :: rest) (PMode.skipb first acc) =
      if strip l = [] then
        parse_go rest (PMode.skipb first acc)
      else
        mk_channel first acc (strip l) :: parse_go rest PMode.top := rfl

lemma aux_line_of_blank {l : List Char} (h : strip l = []) :
    aux_line l = false := by
  unfold aux_line
  rw [h]
  decide

lemma aux_line_of_not_hash {l : List Char}
    (h : starts_with (strip l) hash_pat = false) : aux_line l = false := by
  unfold aux_line
  rw [h]
  rfl

/-- The auxiliary-metadata collection loop consumes a run of auxiliary
lines, appending their stripped forms to the accumulator. -/
lemma parse_go_collect_app (tl : List (List Char)) :
    ∀ (aux : List (List Char)), (∀ l ∈ aux, aux_line l = true) →
    ∀ (first : List Char) (acc : List (List Char)),
    parse_go (aux ++ tl) (PMode.collect first acc)
      = parse_go tl (PMode.collect first (acc ++ aux.map strip)) := by
  intro aux
  induction aux with
  | nil => intro _ first acc; simp
  | cons l aux ih =>
    intro h first acc
    have hl : aux_line l = true := h l (by simp)
    have haux : ∀ x ∈ aux, aux_line x = true := fun x hx => h x (by simp [hx])
    rw [List.cons_append, parse_go_cons_collect, if_pos hl,
      ih haux first (acc ++ [strip l])]
    simp

/-- The blank-skipping loop consumes a run of blank lines. -/
lemma parse_go_skipb_app (first : List Char) (acc : List (List Char))
    (tl : List (List Char)) :
    ∀ (blanks : List (List Char)), (∀ l ∈ blanks, strip l = []) →
    parse_go (blanks ++ tl) (PMode.skipb first acc)
      = parse_go tl (PMode.skipb first acc) := by
  intro blanks
  induction blanks with
  | nil => intro _; simp
  | cons l blanks ih =>
    intro h
    have hl : strip l = [] := h l (by simp)
    have hb : ∀ x ∈ blanks, strip x = [] := fun x hx => h x (by simp [hx])
    rw [List.cons_append, parse_go_cons_skipb, if_pos hl]
    exact ih hb

/-- One complete entry at the head of the input: a primary `#EXTINF:` line,
a run of auxiliary lines, a run of blank lines, and then the first non-blank
line, which becomes the stream URL.  If there were no blank lines the URL
line must not itself be an auxiliary line (else it would be collected as
metadata); it may still be a new `#EXTINF:` line. -/
lemma parse_entry_cons (p : List Char) (aux blanks : List (List Char))
    (u : List Char) (rest : List (List Char))
    (hp : starts_with (strip p) extinf_pat = true)
    (haux : ∀ l ∈ aux, aux_line l = true)
    (hbl : ∀ l ∈ blanks, strip l = [])
    (hu : strip u ≠ [])
    (hmax : blanks = [] → aux_line u = false) :
    parse_go (p :: (aux ++ blanks ++ u :: rest)) PMode.top
      = mk_channel (strip p) (aux.map strip) (strip u)
          :: parse_go rest PMode.top := by
  rw [parse_go_cons_top, if_pos hp,
    show aux ++ blanks ++ u :: rest = aux ++ (blanks ++ u :: rest) by
      simp [List.append_assoc],
    parse_go_collect_app _ aux haux (strip p) []]
  cases blanks with
  | nil =>
    rw [List.nil_append, parse_go_cons_collect, if_neg, if_neg hu]
    · simp
    · rw [hmax rfl]; simp
  | cons b bs =>
    have hb : strip b = [] := hbl b (by simp)
    have hbs : ∀ x ∈ bs, strip x = [] := fun x hx => hbl x (by simp [hx])
    rw [List.cons_append, parse_go_cons_collect, if_neg, if_pos hb,
      parse_go_skipb_app _ _ _ bs hbs, parse_go_cons_skipb, if_neg hu]
    · simp
    · rw [aux_line_of_blank hb]; simp

/-- An `#EXTINF:` entry whose URL search runs off the end of the input
produces no record. -/
lemma parse_entry_eof (p : List Char) (aux blanks : List (List Char))
    (hp : starts_with (strip p) extinf_pat = true)
    (haux : ∀ l ∈ aux, aux_line l = true)
    (hbl : ∀ l ∈ blanks, strip l = []) :
    parse_go (p :: (aux ++ blanks)) PMode.top = [] := by
  rw [parse_go_cons_top, if_pos hp, parse_go_collect_app blanks aux haux]
  cases blanks with
  | nil => exact parse_go_nil _
  | cons b bs =>
    have hb : strip b = [] := hbl b (by simp)
    have hbs : ∀ x ∈ bs, strip x = [] := fun x hx => hbl x (by simp [hx])
    rw [parse_go_cons_collect, if_neg, if_pos hb]
    · have h2 := parse_go_skipb_app (strip p) ([] ++ aux.map strip) [] bs hbs
      rw [List.append_nil] at h2
      rw [h2]
      exact parse_go_nil _
    · rw [aux_line_of_blank hb]; simp

/-- Appending one more piece to a non-empty join inserts one newline. -/
lemma join_nl_append_single (u : List Char) :
    ∀ (xs : List (List Char)), xs ≠ [] →
    join_nl (xs ++ [u]) = join_nl xs ++ nl :: u := by
  intro xs
  induction xs with
  | nil => intro h; exact absurd rfl h
  | cons a xs ih =>
    intro _
    cases xs with
    | nil => rfl
    | cons b t =>
      have := ih (by simp)
      simp only [List.cons_append] at this ⊢
      rw [show join_nl (a :: b :: (t ++ [u]))
            = a ++ nl :: join_nl (b :: (t ++ [u])) from rfl,
        this,
        show join_nl (a :: b :: t) = a ++ nl :: join_nl (b :: t) from rfl]
      simp

/-- `'\n'.join(c['metadata_lines']) + '\n' + c['stream_url']`, the
re-joining of a parsed entry's metadata lines and stream URL. -/
def entry_join (c : Channel) : String :=
  String.mk (join_nl (c.metadata_lines.map String.toList)
    ++ nl :: c.stream_url.toList)

/-- On any channel built by the parser, the re-join is the `full_entry`
field the parser precomputed. -/
lemma entry_join_mk_channel (first : List Char) (aux : List (List Char))
    (url : List Char) :
    entry_join (mk_channel first aux url)
      = String.mk (join_nl (first :: aux) ++ nl :: url) := by
  unfold entry_join mk_channel
  simp [List.map_map, show String.toList ∘ String.mk = id from rfl]

/-- C1 counterexample input: two `#EXTINF:` lines in a row, then a URL. -/
def c1_input : String := "#EXTINF:a\n#EXTINF:b\nhttp://u"

/-- **C1, counterexample.**  The claim says a directive line (one beginning
with `#`) is never consumed as the stream URL.  On the input
`#EXTINF:a\n#EXTINF:b\nhttp://u` the parser takes the second `#EXTINF:`
line — a directive — as the stream URL of the first entry, and the first
subsequent non-blank, non-directive line `http://u` is not the stream URL of
any returned entry. -/
theorem claim_C1_counterexample :
    (parse_m3u c1_input).map Channel.stream_url = ["#EXTINF:b"]
    ∧ starts_with ("#EXTINF:b".toList) hash_pat = true
    ∧ ∀ c ∈ parse_m3u c1_input, c.stream_url ≠ "http://u" := by
  decide

/-- **C1 (amended).**  For every entry begun by a primary `#EXTINF:`
directive, the line taken as the stream URL is the first subsequent
non-blank line after the maximal run of auxiliary directive lines; blank
lines between the metadata and that line are skipped.  That line may itself
be a directive — a new `#EXTINF:` line, or any directive line separated from
the metadata by a blank line — and is then still consumed as the stream URL
(the original claim's "non-directive" restriction fails, see the
counterexample). -/
theorem claim_C1 (p : List Char) (aux blanks : List (List Char))
    (u : List Char) (rest : List (List Char))
    (hp : starts_with (strip p) extinf_pat = true)
    (haux : ∀ l ∈ aux, aux_line l = true)
    (hbl : ∀ l ∈ blanks, strip l = [])
    (hu : strip u ≠ [])
    (hmax : blanks = [] → aux_line u = false) :
    parse_m3u_lines (p :: (aux ++ blanks ++ u :: rest))
      = mk_channel (strip p) (aux.map strip) (strip u)
          :: parse_m3u_lines rest := by
  unfold parse_m3u_lines
  exact parse_entry_cons p aux blanks u rest hp haux hbl hu hmax

/-- **C1, witness.**  A concrete entry whose URL line `#EXTGRP:g` is a
directive separated from the metadata by a blank line: it is consumed as
the stream URL. -/
theorem claim_C1_witness :
    parse_m3u_lines ["#EXTINF:1".toList, "#EXTVLCOPT:x".toList, [],
        "#EXTGRP:g".toList]
      = mk_channel (strip "#EXTINF:1".toList)
          (List.map strip ["#EXTVLCOPT:x".toList])
          (strip "#EXTGRP:g".toList)
          :: parse_m3u_lines [] :=
  claim_C1 "#EXTINF:1".toList ["#EXTVLCOPT:x".toList] [[]]
    "#EXTGRP:g".toList [] (by decide) (by decide) (by decide) (by decide)
    (by decide)

/-- C2 counterexample input: a primary line with a trailing space. -/
def c2_input : String := "#EXTINF:x \nu"

/-- **C2, counterexample.**  The claim says re-joining a parsed entry's
metadata lines and stream URL with newlines reproduces the original entry
text character for character.  On the two-line input `#EXTINF:x \nu`
(trailing space on the metadata line) the parser stores the stripped line,
so the re-join `#EXTINF:x\nu` differs from the original entry text. -/
theorem claim_C2_counterexample :
    (parse_m3u c2_input).map entry_join = ["#EXTINF:x\nu"]
    ∧ ("#EXTINF:x\nu" : String) ≠ c2_input := by
  decide

/-- **C2 (amended).**  Re-joining a parsed entry's `metadata_lines` and
`stream_url` with newlines reproduces the original entry text with each
line stripped of surrounding whitespace and with blank lines between the
metadata and the URL omitted; it reproduces the entry text exactly
(character for character) when the entry's lines carry no surrounding
whitespace and the URL line immediately follows the metadata lines, as
stated here. -/
theorem claim_C2 (p : List Char) (aux : List (List Char)) (u : List Char)
    (rest : List (List Char))
    (hp : starts_with (strip p) extinf_pat = true) (hpt : strip p = p)
    (haux : ∀ l ∈ aux, aux_line l = true ∧ strip l = l)
    (hu : u ≠ []) (hut : strip u = u) (hnd : aux_line u = false) :
    (parse_m3u_lines (p :: (aux ++ u :: rest))).head?.map entry_join
      = some (String.mk (join_nl (p :: (aux ++ [u])))) := by
  have haux1 : ∀ l ∈ aux, aux_line l = true := fun l hl => (haux l hl).1
  have haux2 : aux.map strip = aux :=
    List.map_congr_left (fun l hl => (haux l hl).2) |>.trans (List.map_id _)
  have h := parse_entry_cons p aux [] u rest hp haux1 (by simp)
    (by rw [hut]; exact hu) (fun _ => hnd)
  rw [List.append_nil] at h
  unfold parse_m3u_lines
  rw [h]
  simp only [List.head?_cons, Option.map_some']
  rw [entry_join_mk_channel, hpt, hut, haux2,
    show p :: (aux ++ [u]) = (p :: aux) ++ [u] from rfl,
    join_nl_append_single u (p :: aux) (by simp)]

/-- **C2, witness.**  A concrete already-stripped contiguous entry: the
re-join reproduces the entry text exactly. -/
theorem claim_C2_witness :
    (parse_m3u_lines ("#EXTINF:7".toList :: (["#EXTVLCOPT:o".toList] ++
        "http://u".toList :: ["x".toList]))).head?.map entry_join
      = some (String.mk (join_nl ("#EXTINF:7".toList ::
          (["#EXTVLCOPT:o".toList] ++ ["http://u".toList])))) :=
  claim_C2 "#EXTINF:7".toList ["#EXTVLCOPT:o".toList] "http://u".toList
    ["x".toList] (by decide) (by decide) (by decide) (by decide) (by decide)
    (by decide)

/-! ### C8: one record per complete entry -/

/-- One complete playlist entry in source form: the primary `#EXTINF:` line,
the auxiliary directive lines, the blank lines before the URL, and the
stream URL line. -/
structure Block where
  primary : List Char
  aux : List (List Char)
  blanks : List (List Char)
  url : List Char

/-- The lines of a block as they appear in the playlist text. -/
def block_lines (b : Block) : List (List Char) :=
  b.primary :: (b.aux ++ b.blanks ++ [b.url])

/-- A well-formed complete entry: the primary line starts (stripped) with
`#EXTINF:`, the auxiliary lines are directive lines that are not new
`#EXTINF:` lines, the blank lines strip to nothing, and the URL line is
non-blank and not a directive. -/
def wf_block (b : Block) : Prop :=
  starts_with (strip b.primary) extinf_pat = true
  ∧ (∀ l ∈ b.aux, aux_line l = true)
  ∧ (∀ l ∈ b.blanks, strip l = [])
  ∧ strip b.url ≠ []
  ∧ starts_with (strip b.url) hash_pat = false

instance (b : Block) : Decidable (wf_block b) := by
  unfold wf_block
  infer_instance

/-- The record the parser produces for a well-formed complete entry. -/
def block_channel (b : Block) : Channel :=
  mk_channel (strip b.primary) (b.aux.map strip) (strip b.url)

/-- Parsing a sequence of well-formed complete entries followed by anything:
one record per entry, in order, then whatever the tail yields. -/
lemma parse_blocks (tl : List (List Char)) :
    ∀ (blocks : List Block), (∀ b ∈ blocks, wf_block b) →
    parse_go (blocks.flatMap block_lines ++ tl) PMode.top
      = blocks.map block_channel ++ parse_go tl PMode.top := by
  intro blocks
  induction blocks with
  | nil => intro _; simp
  | cons b blocks ih =>
    intro h
    obtain ⟨hp, haux, hbl, hu, hnd⟩ := h b (by simp)
    have hrest : ∀ x ∈ blocks, wf_block x := fun x hx => h x (by simp [hx])
    rw [List.flatMap_cons, block_lines, List.append_assoc, List.cons_append,
      show b.aux ++ b.blanks ++ [b.url]
          ++ (blocks.flatMap block_lines ++ tl)
        = b.aux ++ b.blanks
          ++ b.url :: (blocks.flatMap block_lines ++ tl) by simp,
      parse_entry_cons b.primary b.aux b.blanks b.url _ hp haux hbl hu
        (fun _ => aux_line_of_not_hash hnd),
      ih hrest]
    rfl

/-- **C8 (confirmed).**  For valid playlist text — a sequence of complete
entries, possibly with a final entry whose primary directive has no
following URL line before end of input, and with unrecognized lines outside
an entry context — `parse_m3u` returns exactly one record per complete
entry: (1) a sequence of well-formed complete entries parses to exactly its
list of records; (2) a trailing malformed entry (primary directive, then
auxiliary and blank lines, then end of input) contributes no record;
(3) a line outside an entry context that is not a primary directive is
skipped and never causes parsing to fail. -/
theorem claim_C8 :
    (∀ (blocks : List Block), (∀ b ∈ blocks, wf_block b) →
      parse_m3u_lines (blocks.flatMap block_lines)
        = blocks.map block_channel)
    ∧ (∀ (blocks : List Block) (p : List Char) (aux blanks : List (List Char)),
        (∀ b ∈ blocks, wf_block b) →
        starts_with (strip p) extinf_pat = true →
        (∀ l ∈ aux, aux_line l = true) →
        (∀ l ∈ blanks, strip l = []) →
        parse_m3u_lines (blocks.flatMap block_lines ++ (p :: (aux ++ blanks)))
          = blocks.map block_channel)
    ∧ (∀ (j : List Char) (ls : List (List Char)),
        starts_with (strip j) extinf_pat = false →
        parse_m3u_lines (j :: ls) = parse_m3u_lines ls) := by
  refine ⟨?_, ?_, ?_⟩
  · intro blocks h
    unfold parse_m3u_lines
    have := parse_blocks [] blocks h
    rw [List.append_nil] at this
    rw [this, parse_go_nil, List.append_nil]
  · intro blocks p aux blanks h hp haux hbl
    unfold parse_m3u_lines
    rw [parse_blocks _ blocks h, parse_entry_eof p aux blanks hp haux hbl,
      List.append_nil]
  · intro j ls hj
    unfold parse_m3u_lines
    rw [parse_go_cons_top, if_neg]
    rw [hj]
    simp

/-- **C8, witness.**  One complete entry parses to one record; adding a
trailing URL-less `#EXTINF:` entry adds no record; a junk line ahead of the
input is skipped. -/
theorem claim_C8_witness :
    parse_m3u_lines
        (([⟨"#EXTINF:1".toList, [], [], "http://u".toList⟩] :
            List Block).flatMap block_lines)
      = [block_channel ⟨"#EXTINF:1".toList, [], [], "http://u".toList⟩]
    ∧ parse_m3u_lines
        (([⟨"#EXTINF:1".toList, [], [], "http://u".toList⟩] :
            List Block).flatMap block_lines
          ++ ("#EXTINF:2".toList :: (["#EXTVLCOPT:x".toList] ++ [[]])))
      = [block_channel ⟨"#EXTINF:1".toList, [], [], "http://u".toList⟩]
    ∧ parse_m3u_lines ("junk".toList :: ["#EXTINF:1".toList,
        "http://u".toList])
      = parse_m3u_lines ["#EXTINF:1".toList, "http://u".toList] :=
  ⟨claim_C8.1 _ (by decide),
   claim_C8.2.1 _ "#EXTINF:2".toList ["#EXTVLCOPT:x".toList] [[]]
     (by decide) (by decide) (by decide) (by decide),
   claim_C8.2.2 "junk".toList _ (by decide)⟩

/-! ### Catalog and match-engine lemmas -/

/-- A definition returned by a per-file search carries exactly the queried
identifier. -/
lemma find_in_file_id {tvg_id : String} {f : SiteFile} {d : ChannelDef}
    (h : find_in_file tvg_id f = some d) : d.xmltv_id = tvg_id := by
  cases f with
  | none => exact absurd h (by simp [find_in_file])
  | some defs =>
    simp only [find_in_file] at h
    by_cases hq : squote ∈ tvg_id.toList
    · rw [if_pos hq] at h
      exact absurd h (by simp)
    · rw [if_neg hq] at h
      have := List.find?_some h
      exact of_decide_eq_true this

/-- A definition returned by the catalog search carries exactly the queried
identifier. -/
lemma find_channel_in_sites_id {tvg_id : String} {d : ChannelDef} :
    ∀ {sites : List SiteFile},
    find_channel_in_sites tvg_id sites = some d → d.xmltv_id = tvg_id := by
  intro sites
  induction sites with
  | nil => intro h; exact absurd h (by simp [find_channel_in_sites])
  | cons f rest ih =>
    intro h
    unfold find_channel_in_sites at h
    cases hf : find_in_file tvg_id f with
    | some c => rw [hf] at h; cases h; exact find_in_file_id hf
    | none => rw [hf] at h; exact ih h

/-- A channel the loop appends a definition for carries that definition's
identifier. -/
lemma entry_lookup_id {sites : List SiteFile} {c : Channel} {d : ChannelDef}
    (h : entry_lookup sites c = some d) : c.tvg_id = some d.xmltv_id := by
  cases hid : c.tvg_id with
  | none => simp [entry_lookup, hid] at h
  | some id =>
    simp only [entry_lookup, hid] at h
    by_cases he : id = ""
    · rw [if_pos he] at h; exact absurd h (by simp)
    · rw [if_neg he] at h
      rw [find_channel_in_sites_id h]

/-- Characterization of the matching loop from an arbitrary starting state:
the appended definitions are the successful catalog outcomes in playlist
order, the matched channels are the entries with a successful outcome in
playlist order, and the counters count matches and skips. -/
lemma run_match_go (sites : List SiteFile) :
    ∀ (cs : List Channel) (st : MatchState),
    cs.foldl (match_step sites) st =
      { channels_root := st.channels_root ++ cs.filterMap (entry_lookup sites)
        matched_channels := st.matched_channels
          ++ cs.filter (fun c => (entry_lookup sites c).isSome)
        matched_count := st.matched_count
          + (cs.filter (fun c => (entry_lookup sites c).isSome)).length
        skipped_count := st.skipped_count
          + (cs.filter (fun c => py_falsy c.tvg_id)).length } := by
  intro cs
  induction cs with
  | nil => intro st; simp
  | cons c cs ih =>
    intro st
    rw [List.foldl_cons, ih]
    cases hid : c.tvg_id with
    | none =>
      simp [match_step, entry_lookup, py_falsy, hid, Nat.add_assoc,
        Nat.add_comm 1]
    | some id =>
      by_cases he : id = ""
      · simp [match_step, entry_lookup, py_falsy, hid, he, Nat.add_assoc,
          Nat.add_comm 1]
      · cases hf : find_channel_in_sites id sites with
        | some el =>
          simp [match_step, entry_lookup, py_falsy, hid, he, hf,
            Nat.add_assoc, Nat.add_comm 1]
        | none =>
          simp [match_step, entry_lookup, py_falsy, hid, he, hf]

/-- The matching loop of `main`, characterized. -/
lemma run_match_spec (sites : List SiteFile) (cs : List Channel) :
    run_match sites cs =
      { channels_root := cs.filterMap (entry_lookup sites)
        matched_channels := cs.filter (fun c => (entry_lookup sites c).isSome)
        matched_count :=
          (cs.filter (fun c => (entry_lookup sites c).isSome)).length
        skipped_count := (cs.filter (fun c => py_falsy c.tvg_id)).length } := by
  unfold run_match init_match_state
  rw [run_match_go]
  simp

/-- An entry with an identifier present (truthy) but no definition found:
the loop leaves the state unchanged and the entry is excluded; `main`
reports these as the removed count. -/
def entry_removed (sites : List SiteFile) (c : Channel) : Bool :=
  !py_falsy c.tvg_id && (entry_lookup sites c).isNone

/-- A skipped entry never reaches the catalog search. -/
lemma falsy_lookup_none {c : Channel} (sites : List SiteFile)
    (h : py_falsy c.tvg_id = true) : entry_lookup sites c = none := by
  cases hid : c.tvg_id with
  | none => simp [entry_lookup, hid]
  | some s =>
    rw [hid] at h
    have hs : s = "" := by simpa [py_falsy] using h
    simp [entry_lookup, hid, hs]

/-- Every entry is counted exactly once: as matched, skipped, or removed. -/
lemma match_partition (sites : List SiteFile) :
    ∀ (cs : List Channel),
    (cs.filter (fun c => (entry_lookup sites c).isSome)).length
      + (cs.filter (fun c => py_falsy c.tvg_id)).length
      + (cs.filter (entry_removed sites)).length
      = cs.length := by
  intro cs
  induction cs with
  | nil => simp
  | cons c cs ih =>
    by_cases hf : py_falsy c.tvg_id = true
    · have hl : entry_lookup sites c = none := falsy_lookup_none sites hf
      simp [List.filter_cons, hl, hf, entry_removed]
      omega
    · rw [Bool.not_eq_true] at hf
      cases hl : entry_lookup sites c with
      | some d =>
        simp [List.filter_cons, hl, hf, entry_removed]
        omega
      | none =>
        simp [List.filter_cons, hl, hf, entry_removed]
        omega

/-- **C4 (confirmed).**  The matching loop processes entries in playlist
order and partitions them: `matched_channels` is the subsequence (in input
order) of entries whose identifier was found in the catalog,
`matched_count` counts them, `skipped_count` counts the entries with no
identifier, and matched + skipped + removed equals the input length, where
removed counts the entries whose identifier is present but not found (the
quantity `main` prints as `total - matched - skipped`). -/
theorem claim_C4 (sites : List SiteFile) (channels : List Channel)
    (hids : ∀ c ∈ channels, c.tvg_id ≠ some "") :
    (run_match sites channels).matched_channels
        = channels.filter (fun c => (entry_lookup sites c).isSome)
    ∧ (run_match sites channels).matched_count
        = (channels.filter (fun c => (entry_lookup sites c).isSome)).length
    ∧ (run_match sites channels).skipped_count
        = (channels.filter (fun c => c.tvg_id = none)).length
    ∧ (run_match sites channels).matched_count
        + (run_match sites channels).skipped_count
        + (channels.filter (entry_removed sites)).length
        = channels.length := by
  have hskip : channels.filter (fun c => py_falsy c.tvg_id)
      = channels.filter (fun c => c.tvg_id = none) := by
    refine List.filter_congr ?_
    intro c hc
    cases hid : c.tvg_id with
    | none => simp [py_falsy]
    | some s =>
      have : s ≠ "" := by
        intro hs
        exact hids c hc (by rw [hid, hs])
      simp [py_falsy, this]
  rw [run_match_spec, hskip]
  refine ⟨rfl, rfl, rfl, ?_⟩
  rw [← hskip]
  exact match_partition sites channels

/-- Concrete witness data: a channel with identifier `abc` (present in the
catalog), one with no identifier, one with identifier `xyz` (absent). -/
def chanA : Channel :=
  { tvg_id := some "abc"
    metadata_lines := ["#EXTINF:-1 tvg-id=\"abc\",A"]
    stream_url := "http://a"
    full_entry := "#EXTINF:-1 tvg-id=\"abc\",A\nhttp://a" }

def chanB : Channel :=
  { tvg_id := none
    metadata_lines := ["#EXTINF:-1,B"]
    stream_url := "http://b"
    full_entry := "#EXTINF:-1,B\nhttp://b" }

def chanC : Channel :=
  { tvg_id := some "xyz"
    metadata_lines := ["#EXTINF:-1 tvg-id=\"xyz\",C"]
    stream_url := "http://c"
    full_entry := "#EXTINF:-1 tvg-id=\"xyz\",C\nhttp://c" }

def defA : ChannelDef := { xmltv_id := "abc" }

def sitesW : List SiteFile := [some [defA]]

def chansW : List Channel := [chanA, chanB, chanC]

/-- **C4, witness.**  On the concrete run: `chanA` matched, `chanB`
skipped, `chanC` removed; 1 + 1 + 1 = 3. -/
theorem claim_C4_witness :
    (run_match sitesW chansW).matched_channels
        = chansW.filter (fun c => (entry_lookup sitesW c).isSome)
    ∧ (run_match sitesW chansW).matched_count
        = (chansW.filter (fun c => (entry_lookup sitesW c).isSome)).length
    ∧ (run_match sitesW chansW).skipped_count
        = (chansW.filter (fun c => c.tvg_id = none)).length
    ∧ (run_match sitesW chansW).matched_count
        + (run_match sitesW chansW).skipped_count
        + (chansW.filter (entry_removed sitesW)).length
        = chansW.length :=
  claim_C4 sitesW chansW (by decide)

/-- `filterMap` keeps as many elements as the `isSome` filter. -/
lemma length_filterMap_isSome {α β : Type} (f : α → Option β) :
    ∀ (cs : List α),
    (cs.filterMap f).length = (cs.filter (fun c => (f c).isSome)).length := by
  intro cs
  induction cs with
  | nil => rfl
  | cons c cs ih =>
    cases hf : f c with
    | none => simp [List.filterMap_cons, List.filter_cons, hf, ih]
    | some b => simp [List.filterMap_cons, List.filter_cons, hf, ih]

/-- Zipping the `isSome` filter with the `filterMap` pairs every kept
element with its own image. -/
lemma filter_zip_filterMap {α β : Type} (f : α → Option β)
    (R : α → β → Prop) (hR : ∀ a b, f a = some b → R a b) :
    ∀ (cs : List α),
    ∀ p ∈ (cs.filter (fun c => (f c).isSome)).zip (cs.filterMap f),
      R p.1 p.2 := by
  intro cs
  induction cs with
  | nil => intro p hp; simp at hp
  | cons c cs ih =>
    intro p hp
    cases hf : f c with
    | none =>
      rw [List.filter_cons, List.filterMap_cons, hf] at hp
      simp only [hf, Option.isSome_none, Bool.false_eq_true, if_false] at hp
      exact ih p hp
    | some b =>
      rw [List.filter_cons, List.filterMap_cons, hf] at hp
      simp only [hf, Option.isSome_some, if_true] at hp
      rw [List.zip_cons_cons] at hp
      rcases List.mem_cons.mp hp with h | h
      · rw [h]
        exact hR c b hf
      · exact ih p h

/-- **C7 (confirmed).**  In every `MatchState` produced by a full match
pass, the number of matched channels equals the number of appended
definition nodes, and the i-th matched channel's identifier equals the
identifier attribute of the i-th appended definition node. -/
theorem claim_C7 (sites : List SiteFile) (channels : List Channel) :
    (run_match sites channels).channels_root.length
        = (run_match sites channels).matched_channels.length
    ∧ ∀ p ∈ (run_match sites channels).matched_channels.zip
          (run_match sites channels).channels_root,
        p.1.tvg_id = some p.2.xmltv_id := by
  rw [run_match_spec]
  constructor
  · exact length_filterMap_isSome (entry_lookup sites) channels
  · exact filter_zip_filterMap (entry_lookup sites)
      (fun c d => c.tvg_id = some d.xmltv_id)
      (fun c d h => entry_lookup_id h) channels

/-- **C7, witness.**  On the concrete run the counts agree and the matched
pair `(chanA, defA)` carries the same identifier. -/
theorem claim_C7_witness :
    (run_match sitesW chansW).channels_root.length
        = (run_match sitesW chansW).matched_channels.length
    ∧ chanA.tvg_id = some defA.xmltv_id :=
  ⟨(claim_C7 sitesW chansW).1,
   (claim_C7 sitesW chansW).2 (chanA, defA) (by decide)⟩

/-! ### C9: catalog scanner totality -/

/-- A concrete identifier containing a single quote. -/
def quoted_id : String := String.mk [Char.ofNat 97, squote, Char.ofNat 98]

/-- **C9 (confirmed).**  The catalog search is total: a file whose parse
fails is skipped and the search continues with the remaining files; and for
any identifier containing a single-quote character the interpolated lookup
query raises in every file (caught and skipped), so the search returns no
definition for any catalog whatsoever — even one holding a definition with
exactly that identifier. -/
theorem claim_C9 (tvg_id : String) :
    (∀ sites : List SiteFile,
      find_channel_in_sites tvg_id ((none : SiteFile) :: sites)
        = find_channel_in_sites tvg_id sites)
    ∧ (squote ∈ tvg_id.toList →
        ∀ sites : List SiteFile, find_channel_in_sites tvg_id sites = none) := by
  constructor
  · intro sites
    rfl
  · intro hq sites
    induction sites with
    | nil => rfl
    | cons f rest ih =>
      cases f with
      | none =>
        simp only [find_channel_in_sites, find_in_file]
        exact ih
      | some defs =>
        have h1 : find_in_file tvg_id (some defs) = none := by
          simp only [find_in_file]
          rw [if_pos hq]
        simp only [find_channel_in_sites, h1]
        exact ih

/-- **C9, witness.**  The catalog holds a definition whose identifier is
exactly the quoted identifier, yet the search returns nothing. -/
theorem claim_C9_witness :
    find_channel_in_sites quoted_id
        [(some [{ xmltv_id := quoted_id }] : SiteFile)] = none :=
  (claim_C9 quoted_id).2 (by decide)
    [(some [{ xmltv_id := quoted_id }] : SiteFile)]

/-! ### C5 and C6: cache and guide freshness -/

/-- **C5 (confirmed).**  A cache record saved at time `t` is accepted when
loaded at `t + CACHE_MAX_AGE - 1` and rejected (treated as a miss) at
`t + CACHE_MAX_AGE + 1`; a missing or unreadable cache file (any read,
parse, or reconstruction error) is likewise a miss, never an abort. -/
theorem claim_C5 (t now : Int) (matched : List Channel)
    (root : List ChannelDef) :
    load_channel_cache (t + CACHE_MAX_AGE - 1)
        (save_channel_cache t matched root) = some (matched, root)
    ∧ load_channel_cache (t + CACHE_MAX_AGE + 1)
        (save_channel_cache t matched root) = none
    ∧ load_channel_cache now CacheState.missing = none
    ∧ load_channel_cache now CacheState.unreadable = none := by
  refine ⟨?_, ?_, rfl, rfl⟩
  · simp only [load_channel_cache, save_channel_cache]
    rw [if_neg (by unfold CACHE_MAX_AGE; omega)]
  · simp only [load_channel_cache, save_channel_cache]
    rw [if_pos (by unfold CACHE_MAX_AGE; omega)]

/-- **C6 (confirmed).**  A guide artifact with last-modified time `t` is
fresh when checked at `t + GUIDE_CACHE_MAX_AGE - 1`, stale at
`t + GUIDE_CACHE_MAX_AGE + 1`, and always stale when absent. -/
theorem claim_C6 (t now : Int) :
    is_guide_recent (t + GUIDE_CACHE_MAX_AGE - 1) (some t) = true
    ∧ is_guide_recent (t + GUIDE_CACHE_MAX_AGE + 1) (some t) = false
    ∧ is_guide_recent now none = false := by
  refine ⟨?_, ?_, rfl⟩
  · simp only [is_guide_recent]
    rw [if_neg (by unfold GUIDE_CACHE_MAX_AGE; omega)]
  · simp only [is_guide_recent]
    rw [if_pos (by unfold GUIDE_CACHE_MAX_AGE; omega)]

/-! ### C3 and C10: the zero-match guard and the premature cache save -/

/-- **C3 (confirmed).**  Whenever the match pass (or a loaded cache) yields
a matched count of zero, the run exits with status 1 and neither
`channels.xml` nor the filtered playlist is written. -/
theorem claim_C3 (refresh : Bool) (now : Int) (cache0 : CacheState)
    (m3u_content : String) (sites : List SiteFile)
    (h : effective_matched_count refresh now cache0 m3u_content sites = 0) :
    (main_model refresh now cache0 m3u_content sites).exit_code = 1
    ∧ (main_model refresh now cache0 m3u_content sites).channels_xml = none
    ∧ (main_model refresh now cache0 m3u_content sites).playlist = none := by
  cases hc : (if refresh then none else load_channel_cache now cache0) with
  | none =>
    simp only [effective_matched_count, hc] at h
    simp [main_model, hc, h]
  | some pr =>
    obtain ⟨matched, root⟩ := pr
    simp only [effective_matched_count, hc] at h
    simp [main_model, hc, h]

/-- **C3, witness.**  A forced-refresh run over an empty playlist matches
nothing: exit status 1 and no outputs. -/
theorem claim_C3_witness :
    (main_model true 0 CacheState.missing "" []).exit_code = 1
    ∧ (main_model true 0 CacheState.missing "" []).channels_xml = none
    ∧ (main_model true 0 CacheState.missing "" []).playlist = none :=
  claim_C3 true 0 CacheState.missing "" [] (by decide)

/-- **C10 (confirmed).**  On a fresh (non-cached) run the cache is saved
before the zero-match guard runs: even when the matched count is zero and
the run exits with status 1 writing no output, the cache file afterwards
holds the current timestamp and the empty match result, and a later load
within `CACHE_MAX_AGE` returns that empty result (so the catalog is not
re-scanned). -/
theorem claim_C10 (refresh : Bool) (now now2 : Int) (cache0 : CacheState)
    (m3u_content : String) (sites : List SiteFile)
    (hmiss : (if refresh then none else load_channel_cache now cache0)
      = (none : Option (List Channel × List ChannelDef)))
    (hzero : (run_match sites (parse_m3u m3u_content)).matched_count = 0)
    (hage : now2 - now ≤ CACHE_MAX_AGE) :
    (main_model refresh now cache0 m3u_content sites).exit_code = 1
    ∧ (main_model refresh now cache0 m3u_content sites).channels_xml = none
    ∧ (main_model refresh now cache0 m3u_content sites).playlist = none
    ∧ (main_model refresh now cache0 m3u_content sites).cache_after
        = save_channel_cache now []
            (run_match sites (parse_m3u m3u_content)).channels_root
    ∧ load_channel_cache now2
          (main_model refresh now cache0 m3u_content sites).cache_after
        = some ([], (run_match sites (parse_m3u m3u_content)).channels_root) := by
  have hspec := run_match_spec sites (parse_m3u m3u_content)
  have hcount : ((parse_m3u m3u_content).filter
      (fun c => (entry_lookup sites c).isSome)).length = 0 := by
    rw [hspec] at hzero
    simpa using hzero
  have hempty : (run_match sites (parse_m3u m3u_content)).matched_channels
      = [] := by
    rw [hspec]
    simpa using List.eq_nil_of_length_eq_zero hcount
  have hmain : main_model refresh now cache0 m3u_content sites
      = { exit_code := 1
          cache_after := save_channel_cache now
            (run_match sites (parse_m3u m3u_content)).matched_channels
            (run_match sites (parse_m3u m3u_content)).channels_root
          channels_xml := none
          playlist := none } := by
    simp [main_model, hmiss, hzero]
  rw [hmain, hempty]
  refine ⟨rfl, rfl, rfl, rfl, ?_⟩
  simp only [save_channel_cache, load_channel_cache]
  rw [if_neg (by unfold CACHE_MAX_AGE at hage ⊢; omega)]

/-- **C10, witness.**  A forced-refresh run over an empty playlist exits
with status 1, yet a load one full `CACHE_MAX_AGE` later still returns the
persisted empty result. -/
theorem claim_C10_witness :
    (main_model true 0 CacheState.missing "" []).exit_code = 1
    ∧ (main_model true 0 CacheState.missing "" []).channels_xml = none
    ∧ (main_model true 0 CacheState.missing "" []).playlist = none
    ∧ (main_model true 0 CacheState.missing "" []).cache_after
        = save_channel_cache 0 [] (run_match [] (parse_m3u "")).channels_root
    ∧ load_channel_cache 86400
          (main_model true 0 CacheState.missing "" []).cache_after
        = some ([], (run_match [] (parse_m3u "")).channels_root) :=
  claim_C10 true 0 86400 CacheState.missing "" [] (by decide) (by decide)
    (by decide)
